import Mathlib

/-!
Verification of `mace_jax/tools/train.py` against its specification.

The module is shallowly embedded: parameter pytrees become `List ℚ`,
`jnp.mean` becomes rational sum/length, the boolean graph-padding mask
becomes `List Bool`, and the Python-level failure modes (AttributeError on
`None`, TypeError on a keyword the callee does not accept) become `Except`
values computed from the attribute and signature sets that the source
defines.
-/

namespace MaceJax

/-- Python-level exceptions that the embedded call sites can raise. -/
inductive PyErr where
  | attributeError
  | typeError
  deriving DecidableEq, Repr

/-- Embedding of `jnp.mean` on a rational vector: sum divided by length. -/
def jnpMean (xs : List ℚ) : ℚ := xs.sum / (xs.length : ℚ)

/-- Embedding of `loss_fn(graph, model(params, graph)) * mask` (line 86):
elementwise product of the per-graph losses with the boolean padding mask,
a `true` entry marking a real graph and a `false` entry a padding graph. -/
def lossTimesMask (losses : List ℚ) (mask : List Bool) : List ℚ :=
  List.zipWith (fun l m => l * (if m then 1 else 0)) losses mask

/-- The scalar training loss of `update_fn` (line 86):
`jnp.mean(loss_fn(graph, model(params, graph)) * mask)`. -/
def batchLoss (losses : List ℚ) (mask : List Bool) : ℚ :=
  jnpMean (lossTimesMask losses mask)

/-- The ramped EMA decay of `update_fn` (line 91):
`min(ema.decay, (1 + num_updates) / (10 + num_updates))`. -/
def effectiveDecay (target : ℚ) (t : ℕ) : ℚ :=
  min target ((1 + (t : ℚ)) / (10 + (t : ℚ)))

/-- The per-parameter EMA shadow update of `update_fn` (line 94):
`x * decay + y * (1 - decay)` with `x` the old shadow value and `y` the
freshly updated parameter value. -/
def emaShadowUpdate (decay shadow newParam : ℚ) : ℚ :=
  shadow * decay + newParam * (1 - decay)

/-- The locally defined `ExponentialMovingAverage` dataclass (lines 37-40),
which shadows the `torch_ema` import of the same name: a pair of shadow
parameters and a target decay rate. -/
structure ExponentialMovingAverage where
  params : List ℚ
  decay : ℚ
  deriving DecidableEq, Repr

/- ------------------------------------------------------------------ -/
/- Helper lemmas about the masked batch loss                           -/
/- ------------------------------------------------------------------ -/

/-- A block of padding entries contributes zero to the masked loss vector's sum. -/
lemma lossTimesMask_replicate_false_sum (pad : List ℚ) :
    (lossTimesMask pad (List.replicate pad.length false)).sum = 0 := by
  induction pad with
  | nil => simp [lossTimesMask]
  | cons x xs ih =>
    simp [lossTimesMask, List.replicate_succ] at ih ⊢
    simpa [lossTimesMask] using ih

lemma lossTimesMask_length (losses : List ℚ) (mask : List Bool)
    (h : mask.length = losses.length) :
    (lossTimesMask losses mask).length = losses.length := by
  simp [lossTimesMask, h]

/- ------------------------------------------------------------------ -/
/- C1                                                                  -/
/- ------------------------------------------------------------------ -/

/-- C1 (counterexample): the claim that padding entries are not counted in
the denominator and that adding padding entries leaves the loss unchanged
fails on the code: one real graph with per-graph loss 2 gives batch loss 2,
but appending a single padding entry (mask `false`) drops the batch loss to
1, because `jnp.mean` divides by the padded length. -/
theorem batchLoss_padding_changes_loss :
    batchLoss [2] [true] = 2 ∧ batchLoss [2, 0] [true, false] = 1 ∧
      batchLoss [2] [true] ≠ batchLoss [2, 0] [true, false] := by
  refine ⟨?_, ?_, ?_⟩ <;> norm_num [batchLoss, jnpMean, lossTimesMask]

/-- C1 (amended): padding entries contribute zero to the loss sum, but they
are counted in the denominator: the update-step loss on a batch extended by
`pad.length` padding entries equals the masked loss sum of the real part
divided by the total number of graph slots including padding, so adding
padding entries rescales the loss rather than leaving it unchanged. -/
theorem batchLoss_padding_in_denominator (losses : List ℚ) (mask : List Bool)
    (h : mask.length = losses.length) (pad : List ℚ) :
    (lossTimesMask (losses ++ pad) (mask ++ List.replicate pad.length false)).sum
        = (lossTimesMask losses mask).sum ∧
      batchLoss (losses ++ pad) (mask ++ List.replicate pad.length false)
        = (lossTimesMask losses mask).sum / ((losses.length : ℚ) + (pad.length : ℚ)) := by
  have hzip : lossTimesMask (losses ++ pad) (mask ++ List.replicate pad.length false)
      = lossTimesMask losses mask ++ lossTimesMask pad (List.replicate pad.length false) := by
    simpa [lossTimesMask] using
      List.zipWith_append (fun l m => l * (if m then (1 : ℚ) else 0)) losses pad
        mask (List.replicate pad.length false) h.symm
  have hsum : (lossTimesMask (losses ++ pad)
      (mask ++ List.replicate pad.length false)).sum = (lossTimesMask losses mask).sum := by
    rw [hzip]
    simp [lossTimesMask_replicate_false_sum]
  refine ⟨hsum, ?_⟩
  have hlen : (lossTimesMask (losses ++ pad)
      (mask ++ List.replicate pad.length false)).length = losses.length + pad.length := by
    rw [hzip, List.length_append, lossTimesMask_length losses mask h]
    have : (List.replicate pad.length false).length = pad.length := by simp
    rw [lossTimesMask_length pad _ this]
  rw [batchLoss, jnpMean, hsum, hlen]
  push_cast
  ring_nf

/-- C1 (witness). -/
theorem batchLoss_padding_in_denominator_witness :
    (lossTimesMask ([2, 3] ++ [5]) ([true, false] ++ List.replicate 1 false)).sum
        = (lossTimesMask [2, 3] [true, false]).sum ∧
      batchLoss ([2, 3] ++ [5]) ([true, false] ++ List.replicate 1 false)
        = (lossTimesMask [2, 3] [true, false]).sum / ((2 : ℚ) + (1 : ℚ)) := by
  have := batchLoss_padding_in_denominator [2, 3] [true, false] (by simp) [5]
  simpa using this

/- ------------------------------------------------------------------ -/
/- C3                                                                  -/
/- ------------------------------------------------------------------ -/

/-- C3 (counterexample): the effective decay at `t = 0` is not `1/10`
regardless of the target decay: with target decay `1/20` the code computes
`min(1/20, 1/10) = 1/20 ≠ 1/10`. -/
theorem effectiveDecay_zero_small_target :
    effectiveDecay (1/20) 0 = 1/20 ∧ effectiveDecay (1/20) 0 ≠ 1/10 := by
  constructor <;> norm_num [effectiveDecay]

/-- The raw ramp `(1+t)/(10+t)` is monotone in `t`. -/
lemma ramp_mono {s t : ℕ} (hst : s ≤ t) :
    (1 + (s : ℚ)) / (10 + (s : ℚ)) ≤ (1 + (t : ℚ)) / (10 + (t : ℚ)) := by
  have hs : (0 : ℚ) < 10 + (s : ℚ) := by positivity
  have ht : (0 : ℚ) < 10 + (t : ℚ) := by positivity
  rw [div_le_div_iff₀ hs ht]
  have hq : (s : ℚ) ≤ (t : ℚ) := by exact_mod_cast hst
  nlinarith [hq]

/-- The raw ramp stays below 1 and `1 - ramp = 9/(10+t)`. -/
lemma one_sub_ramp (t : ℕ) :
    1 - (1 + (t : ℚ)) / (10 + (t : ℚ)) = 9 / (10 + (t : ℚ)) := by
  have ht : (10 + (t : ℚ)) ≠ 0 := by positivity
  field_simp
  ring

/-- C3 (amended): the effective decay at `t = 0` equals `min(target, 1/10)`
(hence `1/10` exactly when the target decay is at least `1/10`), it is
monotonically non-decreasing in `t`, for a target decay at most 1 it comes
within any positive `ε` of the target for all large `t`, and the shadow
update computed by the code equals `d * old_shadow + (1 - d) * new_param`. -/
theorem effectiveDecay_ramp_spec (target : ℚ) :
    effectiveDecay target 0 = min target (1/10) ∧
      (1/10 ≤ target → effectiveDecay target 0 = 1/10) ∧
      (∀ s t : ℕ, s ≤ t → effectiveDecay target s ≤ effectiveDecay target t) ∧
      (target ≤ 1 → ∀ ε : ℚ, 0 < ε →
        ∃ T : ℕ, ∀ t : ℕ, T ≤ t → target - effectiveDecay target t < ε) ∧
      (∀ d x y : ℚ, emaShadowUpdate d x y = d * x + (1 - d) * y) := by
  refine ⟨?_, ?_, ?_, ?_, ?_⟩
  · simp [effectiveDecay]
  · intro h
    simp [effectiveDecay]
    linarith
  · intro s t hst
    exact min_le_min le_rfl (ramp_mono hst)
  · intro htgt ε hε
    refine ⟨Nat.ceil (9 / ε), ?_⟩
    intro t hT
    by_cases hcase : target ≤ (1 + (t : ℚ)) / (10 + (t : ℚ))
    · rw [effectiveDecay, min_eq_left hcase]
      simpa using hε
    · push_neg at hcase
      rw [effectiveDecay, min_eq_right hcase.le]
      have h1 : target - (1 + (t : ℚ)) / (10 + (t : ℚ))
          ≤ 1 - (1 + (t : ℚ)) / (10 + (t : ℚ)) := by linarith
      rw [one_sub_ramp] at h1
      have h2 : (9 : ℚ) / (10 + (t : ℚ)) < ε := by
        have hc : (9 / ε : ℚ) ≤ (Nat.ceil (9 / ε : ℚ) : ℚ) := Nat.le_ceil _
        have hc2 : ((Nat.ceil (9 / ε : ℚ) : ℕ) : ℚ) ≤ (t : ℚ) := by exact_mod_cast hT
        have h10 : (0 : ℚ) < 10 + (t : ℚ) := by positivity
        have h9 : (9 : ℚ) / ε < 10 + (t : ℚ) := by linarith
        have h9' : (9 : ℚ) < (10 + (t : ℚ)) * ε := by
          calc (9 : ℚ) = (9 / ε) * ε := by field_simp
          _ < (10 + (t : ℚ)) * ε := mul_lt_mul_of_pos_right h9 hε
        rw [div_lt_iff₀ h10]
        linarith [mul_comm (10 + (t : ℚ)) ε, h9']
      linarith
  · intro d x y
    rw [emaShadowUpdate]
    ring

/-- C3 (witness). -/
theorem effectiveDecay_ramp_witness :
    effectiveDecay (1/2) 0 = 1/10 ∧
      (∃ T : ℕ, ∀ t : ℕ, T ≤ t → (1/2 : ℚ) - effectiveDecay (1/2) t < 1/100) := by
  refine ⟨(effectiveDecay_ramp_spec (1/2)).2.1 (by norm_num), ?_⟩
  exact (effectiveDecay_ramp_spec (1/2)).2.2.2.1 (by norm_num) (1/100) (by norm_num)

/- ------------------------------------------------------------------ -/
/- The update step and the training-loop state                         -/
/- ------------------------------------------------------------------ -/

/-- The padded graphs tuple as the loop logic sees it: only the padding
mask returned by `jraph.get_graph_padding_mask` (line 84) matters here. -/
structure GraphsTuple where
  mask : List Bool
  deriving DecidableEq, Repr

/-- The external collaborators captured by `update_fn`: the fused forward
pass and per-graph loss `fun p g => loss_fn(g, model(p, g))`, the autodiff
operator `jax.value_and_grad` treated as opaque, and the gradient
transform's `update`. -/
structure TrainCollabs where
  lossOf : List ℚ → GraphsTuple → List ℚ
  valueAndGrad : (List ℚ → ℚ) → List ℚ → ℚ × List ℚ
  gtUpdate : List ℚ → List ℚ → List ℚ × List ℚ

/-- Embedding of `update_fn` (lines 79-98): masked mean loss and gradient,
gradient-transform update, `optax.apply_updates` as elementwise addition,
and the optional EMA shadow update with the ramped decay. -/
def update_fn (C : TrainCollabs) (params optimizer_state : List ℚ)
    (ema : Option ExponentialMovingAverage) (num_updates : ℕ)
    (graph : GraphsTuple) :
    ℚ × List ℚ × List ℚ × Option ExponentialMovingAverage :=
  let mask := graph.mask
  let lg := C.valueAndGrad (fun p => batchLoss (C.lossOf p graph) mask) params
  let uo := C.gtUpdate lg.2 optimizer_state
  let params' := List.zipWith (· + ·) params uo.1
  let ema' := ema.map (fun e =>
    { params := List.zipWith
        (fun x y => emaShadowUpdate (effectiveDecay e.decay num_updates) x y)
        e.params params',
      decay := e.decay })
  (lg.1, params', uo.2, ema')

/-- The update step as the training loop invokes it: `max_grad_norm` is in
scope inside `train` (it is logged at lines 75-76) but `update_fn` never
reads it and no clipping is applied anywhere on the update path. -/
def trainUpdateStep (max_grad_norm : Option ℚ) (C : TrainCollabs)
    (params optimizer_state : List ℚ) (ema : Option ExponentialMovingAverage)
    (num_updates : ℕ) (graph : GraphsTuple) :
    ℚ × List ℚ × List ℚ × Option ExponentialMovingAverage :=
  update_fn C params optimizer_state ema num_updates graph

/-- The early-stopping and checkpoint bookkeeping of the loop:
`lowestLoss = none` models the initial `np.inf`, `saves` counts the
`checkpoint_handler.save` calls, `stopped` records the `break`. -/
structure ESState where
  lowestLoss : Option ℚ
  patienceCounter : ℕ
  stopped : Bool
  saves : ℕ
  deriving DecidableEq, Repr

/-- Initial bookkeeping state (lines 70-71). -/
def initESState : ESState := ⟨none, 0, false, 0⟩

/-- The test `valid_loss >= lowest_loss` (line 154), `lowest_loss` being
`np.inf` before the first evaluation. -/
def geLowest (v : ℚ) : Option ℚ → Bool
  | none => false
  | some l => decide (l ≤ v)

/-- One evaluation's bookkeeping (lines 154-174): on non-improvement
(`valid_loss >= lowest_loss`, so ties count as non-improvement) the
patience counter is incremented and training stops once it reaches
`patience`; on strict improvement the lowest loss is replaced, the counter
reset to zero, and a checkpoint saved. -/
def earlyStopStep (patience : ℕ) (v : ℚ) (s : ESState) : ESState :=
  if geLowest v s.lowestLoss then
    { s with patienceCounter := s.patienceCounter + 1,
             stopped := s.stopped || decide (patience ≤ s.patienceCounter + 1) }
  else
    { lowestLoss := some v, patienceCounter := 0, stopped := s.stopped,
      saves := s.saves + 1 }

/-- The sequence of evaluation epochs: each evaluation feeds one validation
loss into the bookkeeping; after the `break` no further evaluation runs. -/
def runEvals (patience : ℕ) (losses : List ℚ) (s : ESState) : ESState :=
  match losses with
  | [] => s
  | v :: rest =>
    if s.stopped then s else runEvals patience rest (earlyStopStep patience v s)

/- ------------------------------------------------------------------ -/
/- Python-level call-site models                                       -/
/- ------------------------------------------------------------------ -/

/-- Attribute names available on an instance of the local
`ExponentialMovingAverage` dataclass: exactly its two dataclass fields;
the class body (lines 37-40) defines no methods, and it shadows the
`torch_ema` import of the same name. -/
def emaDataclassAttrs : List String := ["params", "decay"]

/-- Python attribute lookup on such an instance: a missing attribute
raises AttributeError. -/
def emaGetattr (name : String) : Except PyErr String :=
  if emaDataclassAttrs.contains name then Except.ok name
  else Except.error PyErr.attributeError

/-- The checkpoint action taken on a strictly improving evaluation (lines
164-174): when `ema` is not `None` the code first evaluates
`ema.average_parameters()` as a context manager before saving; the `ok`
value is the number of completed checkpoint saves. -/
def checkpointOnImprove (emaEnabled : Bool) : Except PyErr ℕ :=
  if emaEnabled then
    match emaGetattr "average_parameters" with
    | Except.error e => Except.error e
    | Except.ok _ => Except.ok 1
  else Except.ok 1

/-- The argument expression `params if ema is not None else ema.params`
(line 122): with `ema` not `None` it selects the live `params`; with `ema`
equal to `None` the `else` branch evaluates `ema.params` on `None`, which
raises AttributeError. -/
def evalParamsArg (params : List ℚ) (ema : Option ExponentialMovingAverage) :
    Except PyErr (List ℚ) :=
  match ema with
  | some _ => Except.ok params
  | none => Except.error PyErr.attributeError

/-- The parameter names of `evaluate` (lines 190-195). -/
def evaluateSigParams : List String := ["model", "params", "loss_fn", "data_loader"]

/-- The keyword arguments `train` passes at its `evaluate` call
(lines 120-126). -/
def trainEvaluateKwargs : List String :=
  ["model", "params", "loss_fn", "data_loader", "device"]

/-- The `evaluate` call as issued by `train`: the argument expressions are
evaluated first; the call itself then raises TypeError when some keyword
is not a parameter of the callee. -/
def trainEvaluateCall (params : List ℚ) (ema : Option ExponentialMovingAverage) :
    Except PyErr (List ℚ) :=
  match evalParamsArg params ema with
  | Except.error e => Except.error e
  | Except.ok p =>
      if trainEvaluateKwargs.all (fun k => evaluateSigParams.contains k) then
        Except.ok p
      else Except.error PyErr.typeError

/-- The keyword names used by the registered pytree unflatten function
(line 46): `ExponentialMovingAverage(prams=children[0], decay=children[1])`. -/
def emaUnflattenKwargs : List String := ["prams", "decay"]

/-- The `__init__` parameter names generated for the
`ExponentialMovingAverage` dataclass: exactly its fields (lines 37-40). -/
def emaInitParams : List String := ["params", "decay"]

/-- The registered flatten function (line 45): `((x.params, x.decay), None)`. -/
def emaFlatten (e : ExponentialMovingAverage) : List ℚ × ℚ := (e.params, e.decay)

/-- The registered unflatten function (line 46): a constructor call whose
keyword names must all be `__init__` parameters, else Python raises
TypeError. -/
def emaUnflatten (children : List ℚ × ℚ) : Except PyErr ExponentialMovingAverage :=
  if emaUnflattenKwargs.all (fun k => emaInitParams.contains k) then
    Except.ok ⟨children.1, children.2⟩
  else Except.error PyErr.typeError

/-- The flatten-unflatten round trip, performed by the jit machinery on
every pytree argument of the compiled update step. -/
def emaRoundTrip (e : ExponentialMovingAverage) :
    Except PyErr ExponentialMovingAverage :=
  emaUnflatten (emaFlatten e)

/-- A jitted `update_fn` call round-trips its `ema` argument whenever that
argument is not `None`. -/
def jitUpdateEmaArg (ema : Option ExponentialMovingAverage) :
    Except PyErr (Option ExponentialMovingAverage) :=
  match ema with
  | none => Except.ok none
  | some e => (emaRoundTrip e).map some

/- ------------------------------------------------------------------ -/
/- SWA bookkeeping                                                     -/
/- ------------------------------------------------------------------ -/

/-- The SWA configuration relevant to the loop logic: the epoch at which
the SWA phase begins. The averaged model, its scheduler, and the SWA loss
are external collaborators whose invocations are counted in
`SWATrainState`. -/
structure SWAContainer where
  start : ℕ
  deriving DecidableEq, Repr

/-- The loop-local SWA bookkeeping: the `swa_start` flag (true until the
transition has been logged), whether `loss_fn` currently is
`swa.loss_fn`, the number of `swa.model.update_parameters` calls, the
number of `swa.scheduler.step` calls, and the number of transition log
messages. -/
structure SWATrainState where
  swaStart : Bool
  lossIsSWA : Bool
  accUpdates : ℕ
  schedSteps : ℕ
  swaLogs : ℕ
  deriving DecidableEq, Repr

/-- Initial SWA bookkeeping (line 73 sets `swa_start = True`). -/
def initSWAState : SWATrainState := ⟨true, false, 0, 0, 0⟩

/-- The scheduler / SWA block at the end of each epoch (lines 176-185). -/
def swaBlock (swa : Option SWAContainer) (epoch : ℕ) (s : SWATrainState) :
    SWATrainState :=
  match swa with
  | none => s
  | some c =>
    if epoch < c.start then s
    else
      { swaStart := false, lossIsSWA := true,
        accUpdates := s.accUpdates + 1, schedSteps := s.schedSteps + 1,
        swaLogs := s.swaLogs + (if s.swaStart then 1 else 0) }

/-- The SWA bookkeeping after the first `k` epochs
`start_epoch, ..., start_epoch + k - 1` of the loop. -/
def runSWA (swa : Option SWAContainer) (startEpoch : ℕ) : ℕ → SWATrainState
  | 0 => initSWAState
  | k + 1 => swaBlock swa (startEpoch + k) (runSWA swa startEpoch k)

/- ------------------------------------------------------------------ -/
/- Evaluate                                                            -/
/- ------------------------------------------------------------------ -/

/-- One batch of the validation loader as `evaluate` sees it: the scalar
loss computed for the batch and the number of examples in the batch. -/
structure EvalBatch where
  loss : ℚ
  nGraphs : ℕ
  deriving DecidableEq, Repr

/-- The accumulation `total_loss += float(loss)` over the loader
(lines 196-208). -/
def evaluateTotalLoss (batches : List EvalBatch) : ℚ :=
  batches.foldl (fun acc b => acc + b.loss) 0

/-- The returned average loss `total_loss / len(data_loader)` (line 217). -/
def evaluateAvgLoss (batches : List EvalBatch) : ℚ :=
  evaluateTotalLoss batches / (batches.length : ℚ)

/- ------------------------------------------------------------------ -/
/- C2                                                                  -/
/- ------------------------------------------------------------------ -/

/-- C2 (code bug): the ternary at line 122 is reversed. With `ema` equal
to `None` the selected expression is `ema.params`, raising AttributeError
instead of passing the live parameters; with `ema` supplied it passes the
live `params` (here `[3]`), not the EMA shadow parameters (here `[7]`). -/
theorem evalParamsArg_swapped :
    evalParamsArg [3] none = Except.error PyErr.attributeError ∧
      evalParamsArg [3] (some ⟨[7], 1/2⟩) = Except.ok [3] ∧
      ([3] : List ℚ) ≠ [7] := by
  refine ⟨rfl, rfl, by decide⟩

/- ------------------------------------------------------------------ -/
/- C4                                                                  -/
/- ------------------------------------------------------------------ -/

/-- C4: a validation loss equal to the best seen so far counts as
non-improvement and increments the patience counter (saving nothing); a
strict improvement resets the counter to zero; training stops once the
counter reaches `patience`; and on the loss sequence `[5, 4, 4, 4]` with
patience 2 the run stops exactly when the counter reaches 2, while the
prefix `[5, 4, 4]` does not stop. -/
theorem earlyStopping_spec (p : ℕ) (s : ESState) (v l : ℚ) :
    (s.lowestLoss = some l → v = l →
      (earlyStopStep p v s).patienceCounter = s.patienceCounter + 1 ∧
        (earlyStopStep p v s).saves = s.saves) ∧
      (s.lowestLoss = some l → v < l → (earlyStopStep p v s).patienceCounter = 0) ∧
      (s.lowestLoss = some l → l ≤ v → p ≤ s.patienceCounter + 1 →
        (earlyStopStep p v s).stopped = true) ∧
      runEvals 2 [5, 4, 4, 4] initESState = ⟨some 4, 2, true, 2⟩ ∧
      (runEvals 2 [5, 4, 4] initESState).stopped = false := by
  refine ⟨?_, ?_, ?_, ?_, ?_⟩
  · intro h1 h2
    subst h2
    simp [earlyStopStep, geLowest, h1]
  · intro h1 h2
    have hg : geLowest v s.lowestLoss = false := by
      simp [geLowest, h1]
      linarith
    simp [earlyStopStep, hg]
  · intro h1 h2 h3
    have hg : geLowest v s.lowestLoss = true := by
      simp [geLowest, h1]
      exact h2
    simp [earlyStopStep, hg, h3]
  · decide
  · decide

/-- C4 (witness). -/
theorem earlyStopping_witness :
    ((earlyStopStep 2 4 ⟨some 4, 0, false, 2⟩).patienceCounter = 0 + 1 ∧
      (earlyStopStep 2 4 ⟨some 4, 0, false, 2⟩).saves = 2) ∧
      (earlyStopStep 2 3 ⟨some 4, 1, false, 2⟩).patienceCounter = 0 ∧
      (earlyStopStep 2 4 ⟨some 4, 1, false, 2⟩).stopped = true := by
  refine ⟨(earlyStopping_spec 2 ⟨some 4, 0, false, 2⟩ 4 4).1 rfl rfl, ?_, ?_⟩
  · exact (earlyStopping_spec 2 ⟨some 4, 1, false, 2⟩ 3 4).2.1 rfl (by norm_num)
  · exact (earlyStopping_spec 2 ⟨some 4, 1, false, 2⟩ 4 4).2.2.1 rfl le_rfl (by norm_num)

/- ------------------------------------------------------------------ -/
/- C5                                                                  -/
/- ------------------------------------------------------------------ -/

/-- C5 (code bug): a checkpoint save is attempted exactly on strict
improvement (the `saves` counter increments iff the non-improvement test
is false), but with EMA enabled the improvement branch evaluates
`ema.average_parameters()` on the local dataclass, which has no such
attribute, so AttributeError is raised and no checkpoint is persisted;
without EMA the save completes. -/
theorem checkpoint_ema_attribute_error :
    checkpointOnImprove true = Except.error PyErr.attributeError ∧
      checkpointOnImprove false = Except.ok 1 ∧
      (∀ (p : ℕ) (v : ℚ) (s : ESState),
        (earlyStopStep p v s).saves = s.saves + 1 ↔
          geLowest v s.lowestLoss = false) := by
  refine ⟨rfl, rfl, ?_⟩
  intro p v s
  by_cases hg : geLowest v s.lowestLoss = true
  · simp [earlyStopStep, hg]
  · have hg' : geLowest v s.lowestLoss = false := by
      cases hb : geLowest v s.lowestLoss
      · rfl
      · exact absurd hb hg
    simp [earlyStopStep, hg']

/- ------------------------------------------------------------------ -/
/- C6                                                                  -/
/- ------------------------------------------------------------------ -/

/-- Shape of the SWA bookkeeping after `k` epochs: the loss has switched
iff some processed epoch reached `swa.start`, the `swa_start` flag is the
negation of that, and the transition has been logged at most (and, after
the switch, exactly) once. -/
lemma runSWA_shape (c : SWAContainer) (s k : ℕ) :
    ((runSWA (some c) s k).lossIsSWA = true ↔ 0 < k ∧ c.start ≤ s + k - 1) ∧
      ((runSWA (some c) s k).swaStart = true ↔ ¬(0 < k ∧ c.start ≤ s + k - 1)) ∧
      ((runSWA (some c) s k).swaLogs
        = if 0 < k ∧ c.start ≤ s + k - 1 then 1 else 0) := by
  induction k with
  | zero =>
    refine ⟨by simp [runSWA, initSWAState], by simp [runSWA, initSWAState], ?_⟩
    simp [runSWA, initSWAState]
  | succ k ih =>
    obtain ⟨ih1, ih2, ih3⟩ := ih
    by_cases hq : s + k < c.start
    · have hblock : runSWA (some c) s (k + 1) = runSWA (some c) s k := by
        simp [runSWA, swaBlock, hq]
      refine ⟨?_, ?_, ?_⟩
      · rw [hblock, ih1]; omega
      · rw [hblock, ih2]
        constructor
        · intro h; omega
        · intro h; omega
      · rw [hblock, ih3]
        have h1 : ¬(0 < k ∧ c.start ≤ s + k - 1) := by omega
        have h2 : ¬(0 < k + 1 ∧ c.start ≤ s + (k + 1) - 1) := by omega
        rw [if_neg h1, if_neg h2]
    · have hblock : runSWA (some c) s (k + 1) =
          { swaStart := false, lossIsSWA := true,
            accUpdates := (runSWA (some c) s k).accUpdates + 1,
            schedSteps := (runSWA (some c) s k).schedSteps + 1,
            swaLogs := (runSWA (some c) s k).swaLogs
              + (if (runSWA (some c) s k).swaStart then 1 else 0) } := by
        simp [runSWA, swaBlock, hq]
      refine ⟨?_, ?_, ?_⟩
      · rw [hblock]
        exact iff_of_true rfl (by omega)
      · rw [hblock]
        exact iff_of_false (by simp) (not_not_intro (by omega))
      · rw [hblock]
        simp only
        have hP1 : 0 < k + 1 ∧ c.start ≤ s + (k + 1) - 1 := by omega
        rw [if_pos hP1]
        by_cases hPk : 0 < k ∧ c.start ≤ s + k - 1
        · have hstart : (runSWA (some c) s k).swaStart = false := by
            cases hb : (runSWA (some c) s k).swaStart
            · rfl
            · exact absurd hPk (ih2.mp hb)
          rw [ih3, if_pos hPk, hstart]
          simp
        · have hstart : (runSWA (some c) s k).swaStart = true := ih2.mpr hPk
          rw [ih3, if_neg hPk, hstart]
          simp

/-- C6: with an SWA container configured, the loss switch happens at the
first epoch at or past `swa.start` and is irreversible; the transition log
fires exactly once (the log count is 1 precisely when the switch has
happened); and from any qualifying epoch on, the epoch updates the SWA
parameter accumulator, steps the SWA schedule, and leaves the SWA loss in
place. -/
theorem swa_switch_spec (c : SWAContainer) (s : ℕ) :
    (∀ k : ℕ, ((runSWA (some c) s (k + 1)).lossIsSWA = true ↔ c.start ≤ s + k)) ∧
      (∀ k k' : ℕ, k ≤ k' → (runSWA (some c) s k).lossIsSWA = true →
        (runSWA (some c) s k').lossIsSWA = true) ∧
      (∀ k : ℕ, (runSWA (some c) s k).swaLogs
        = if (runSWA (some c) s k).lossIsSWA = true then 1 else 0) ∧
      (∀ k : ℕ, c.start ≤ s + k →
        (runSWA (some c) s (k + 1)).accUpdates
            = (runSWA (some c) s k).accUpdates + 1 ∧
          (runSWA (some c) s (k + 1)).schedSteps
            = (runSWA (some c) s k).schedSteps + 1 ∧
          (runSWA (some c) s (k + 1)).lossIsSWA = true) := by
  refine ⟨?_, ?_, ?_, ?_⟩
  · intro k
    rw [(runSWA_shape c s (k + 1)).1]
    omega
  · intro k k' hkk h
    rw [(runSWA_shape c s k').1]
    have := (runSWA_shape c s k).1.mp h
    omega
  · intro k
    obtain ⟨h1, _, h3⟩ := runSWA_shape c s k
    by_cases hP : 0 < k ∧ c.start ≤ s + k - 1
    · rw [h3, if_pos hP, if_pos (h1.mpr hP)]
    · have hl : ¬((runSWA (some c) s k).lossIsSWA = true) := fun h => hP (h1.mp h)
      rw [h3, if_neg hP, if_neg hl]
  · intro k hk
    have hq : ¬(s + k < c.start) := by omega
    refine ⟨?_, ?_, ?_⟩ <;> simp [runSWA, swaBlock, hq]

/-- C6 (witness). -/
theorem swa_switch_witness :
    (runSWA (some ⟨3⟩) 0 6).lossIsSWA = true ∧
      (runSWA (some ⟨3⟩) 0 8).lossIsSWA = true ∧
      (runSWA (some ⟨3⟩) 0 5).accUpdates = (runSWA (some ⟨3⟩) 0 4).accUpdates + 1 := by
  refine ⟨?_, ?_, ?_⟩
  · exact ((swa_switch_spec ⟨3⟩ 0).1 5).mpr (by norm_num)
  · exact (swa_switch_spec ⟨3⟩ 0).2.1 6 8 (by norm_num)
      (((swa_switch_spec ⟨3⟩ 0).1 5).mpr (by norm_num))
  · exact ((swa_switch_spec ⟨3⟩ 0).2.2.2 4 (by norm_num)).1

/- ------------------------------------------------------------------ -/
/- C7                                                                  -/
/- ------------------------------------------------------------------ -/

lemma evaluateTotalLoss_aux (a : ℚ) (l : List EvalBatch) :
    l.foldl (fun acc b => acc + b.loss) a = a + (l.map EvalBatch.loss).sum := by
  induction l generalizing a with
  | nil => simp
  | cons b t ih =>
    simp [List.foldl, ih]
    ring

/-- C7: on a non-empty loader, the average loss returned by `evaluate`
equals the sum of the per-batch scalar losses divided by the number of
batches, and it depends only on the per-batch losses: any loader with the
same per-batch losses but different batch sizes yields the same average,
so the average is not weighted by batch size. -/
theorem evaluate_avg_loss_unweighted (batches : List EvalBatch)
    (h : batches ≠ []) :
    evaluateAvgLoss batches
        = (batches.map EvalBatch.loss).sum / (batches.length : ℚ) ∧
      (∀ batches' : List EvalBatch,
        batches.map EvalBatch.loss = batches'.map EvalBatch.loss →
          evaluateAvgLoss batches = evaluateAvgLoss batches') := by
  have key : ∀ l : List EvalBatch,
      evaluateAvgLoss l = (l.map EvalBatch.loss).sum / (l.length : ℚ) := by
    intro l
    rw [evaluateAvgLoss, evaluateTotalLoss, evaluateTotalLoss_aux]
    simp
  refine ⟨key batches, fun batches' hmap => ?_⟩
  rw [key batches, key batches', hmap]
  have hlen : batches.length = batches'.length := by
    have := congrArg List.length hmap
    simpa using this
  rw [hlen]

/-- C7 (witness). -/
theorem evaluate_avg_loss_witness :
    evaluateAvgLoss [⟨1, 1⟩, ⟨4, 3⟩]
        = (([⟨1, 1⟩, ⟨4, 3⟩] : List EvalBatch).map EvalBatch.loss).sum
            / (([⟨1, 1⟩, ⟨4, 3⟩] : List EvalBatch).length : ℚ) ∧
      evaluateAvgLoss [⟨1, 1⟩, ⟨4, 3⟩] = evaluateAvgLoss [⟨1, 7⟩, ⟨4, 2⟩] := by
  have H := evaluate_avg_loss_unweighted [⟨1, 1⟩, ⟨4, 3⟩] (by simp)
  exact ⟨H.1, H.2 [⟨1, 7⟩, ⟨4, 2⟩] rfl⟩

/- ------------------------------------------------------------------ -/
/- C8                                                                  -/
/- ------------------------------------------------------------------ -/

/-- C8: the update step never reads `max_grad_norm`: for any two
configured thresholds (including `none` versus a float) and otherwise
identical inputs, the loss, the new parameters, the new optimizer state,
and the new EMA state are identical. -/
theorem update_independent_of_max_grad_norm
    (g g' : Option ℚ) (C : TrainCollabs) (params optimizer_state : List ℚ)
    (ema : Option ExponentialMovingAverage) (num_updates : ℕ)
    (graph : GraphsTuple) :
    trainUpdateStep g C params optimizer_state ema num_updates graph
      = trainUpdateStep g' C params optimizer_state ema num_updates graph := rfl

/- ------------------------------------------------------------------ -/
/- C9                                                                  -/
/- ------------------------------------------------------------------ -/

lemma trainEvaluateCall_some (params : List ℚ) (e : ExponentialMovingAverage) :
    trainEvaluateCall params (some e) = Except.error PyErr.typeError := rfl

/-- C9: the `evaluate` call issued by `train` always fails before any
metrics are produced: with `ema` equal to `None` the argument expression
raises AttributeError, with `ema` supplied the unexpected `device` keyword
raises TypeError, and in no case does the call return a value. -/
theorem train_evaluate_call_always_fails (params : List ℚ) :
    trainEvaluateCall params none = Except.error PyErr.attributeError ∧
      (∀ e : ExponentialMovingAverage,
        trainEvaluateCall params (some e) = Except.error PyErr.typeError) ∧
      (∀ (ema : Option ExponentialMovingAverage) (r : List ℚ),
        trainEvaluateCall params ema ≠ Except.ok r) := by
  refine ⟨rfl, fun e => trainEvaluateCall_some params e, fun ema r => ?_⟩
  cases ema with
  | none =>
    intro hcontra
    rw [show trainEvaluateCall params none = Except.error PyErr.attributeError
      from rfl] at hcontra
    exact Except.noConfusion hcontra
  | some e =>
    intro hcontra
    rw [trainEvaluateCall_some params e] at hcontra
    exact Except.noConfusion hcontra

/- ------------------------------------------------------------------ -/
/- C10                                                                 -/
/- ------------------------------------------------------------------ -/

/-- C10: the registered unflatten function constructs the dataclass with
the keyword `prams`, which its `__init__` does not accept, so every
flatten-unflatten round trip of an EMA state raises TypeError; hence a
jitted update-step call with a non-`None` `ema` argument fails. -/
theorem ema_roundtrip_type_error :
    (∀ e : ExponentialMovingAverage,
        emaRoundTrip e = Except.error PyErr.typeError) ∧
      (∀ e : ExponentialMovingAverage,
        jitUpdateEmaArg (some e) = Except.error PyErr.typeError) :=
  ⟨fun _ => rfl, fun _ => rfl⟩

end MaceJax
